import Mathlib

/-!
Verification of the airtraffic style and formatting layer.

The Python modules `supply_format.py` and `my_style_classes.py` are shallowly
embedded below.  Python numbers are modelled as rationals, Python dictionaries
as association lists with first-match lookup and in-place update semantics,
and fallible accesses as `Option` and `Except` values.
-/

/-- Round half to even, the rounding used by the Python format specifier
`.0f` and by the builtin `round`. -/
def pyRound0 (q : ℚ) : ℤ :=
  let f := q.floor
  let frac := q - (f : ℚ)
  if frac < 1/2 then f
  else if 1/2 < frac then f + 1
  else if f % 2 = 0 then f else f + 1

/-- The string produced by the Python format expression `{v:.0f}`:
the value rounded half-to-even to an integer, with a sign for negative
values that round to zero. -/
def fmt0 (q : ℚ) : String :=
  let n := pyRound0 q
  if n = 0 ∧ q < 0 then "-0" else toString n

/-- The scale ladder `scale_dict` of `format_ticks`, in insertion order. -/
def scale_dict : List (String × ℚ) :=
  [("mil", 1000), ("MM", 1000000), ("B", 1000000000), ("T", 1000000000000)]

/-- The keys of `scale_dict`, in order (the list `prev_scales`). -/
def prev_scales : List String := scale_dict.map Prod.fst

/-- The fallback suffix of the branch `formatted_value < 1` of
`format_ticks`: the previous key of `scale_dict` when the index of the
current key minus one is positive, and the empty string otherwise. -/
def prevScaleOf (scale : String) : String :=
  let index : ℤ := (prev_scales.indexOf scale : ℤ) - 1
  if 0 < index then prev_scales.getD index.toNat "" else ""

/-- The `for scale, unidade in scale_dict.items()` loop of `format_ticks`:
the first scale whose ratio test succeeds decides the returned string, and
`none` models falling through the loop. -/
def format_ticks_loop (value m : ℚ) : List (String × ℚ) → Option String
  | [] => none
  | (scale, unidade) :: rest =>
    if 1/10 ≤ m / unidade ∧ m / unidade < 999 then
      if value / unidade < 1 then
        some (fmt0 value ++ prevScaleOf scale)
      else
        some (fmt0 (value / unidade) ++ scale)
    else format_ticks_loop value m rest

/-- Embedding of `format_ticks(value, max=None, _=None)` from
`supply_format.py`.  The third parameter is accepted and ignored, exactly
as in the source. -/
def format_ticks {α : Type} (value : ℚ) (max : Option ℚ := none)
    (_ignored : Option α := none) : String :=
  let m := max.getD value
  if value = 0 then fmt0 value
  else (format_ticks_loop value m scale_dict).getD (fmt0 value)

/-- The ratio test of the loop for the scale at position `i` of the ladder. -/
def scaleCond (m : ℚ) (i : ℕ) : Prop :=
  1/10 ≤ m / (((scale_dict.get? i).map Prod.snd).getD 1) ∧
    m / (((scale_dict.get? i).map Prod.snd).getD 1) < 999

/-- The unit of the scale at position `i` of the ladder. -/
def scaleUnit (i : ℕ) : ℚ := ((scale_dict.get? i).map Prod.snd).getD 1

/-- The suffix of the scale at position `i` of the ladder. -/
def scaleSuffix (i : ℕ) : String := ((scale_dict.get? i).map Prod.fst).getD ""

instance (m : ℚ) (i : ℕ) : Decidable (scaleCond m i) := by
  unfold scaleCond; infer_instance

lemma format_ticks_eq {α : Type} (value : ℚ) (max : Option ℚ) (p : Option α) :
    format_ticks value max p =
      if value = 0 then fmt0 value
      else (format_ticks_loop value (max.getD value) scale_dict).getD (fmt0 value) := rfl

lemma loop_cons_neg (value m : ℚ) (s : String) (u : ℚ) (rest : List (String × ℚ))
    (h : ¬ (1/10 ≤ m / u ∧ m / u < 999)) :
    format_ticks_loop value m ((s, u) :: rest) = format_ticks_loop value m rest := by
  show (if 1/10 ≤ m / u ∧ m / u < 999 then
      if value / u < 1 then some (fmt0 value ++ prevScaleOf s)
      else some (fmt0 (value / u) ++ s)
    else format_ticks_loop value m rest) = format_ticks_loop value m rest
  rw [if_neg h]

lemma loop_cons_pos_ge (value m : ℚ) (s : String) (u : ℚ) (rest : List (String × ℚ))
    (h : 1/10 ≤ m / u ∧ m / u < 999) (h2 : ¬ value / u < 1) :
    format_ticks_loop value m ((s, u) :: rest) = some (fmt0 (value / u) ++ s) := by
  show (if 1/10 ≤ m / u ∧ m / u < 999 then
      if value / u < 1 then some (fmt0 value ++ prevScaleOf s)
      else some (fmt0 (value / u) ++ s)
    else format_ticks_loop value m rest) = some (fmt0 (value / u) ++ s)
  rw [if_pos h, if_neg h2]

lemma loop_cons_pos_lt (value m : ℚ) (s : String) (u : ℚ) (rest : List (String × ℚ))
    (h : 1/10 ≤ m / u ∧ m / u < 999) (h2 : value / u < 1) :
    format_ticks_loop value m ((s, u) :: rest) = some (fmt0 value ++ prevScaleOf s) := by
  show (if 1/10 ≤ m / u ∧ m / u < 999 then
      if value / u < 1 then some (fmt0 value ++ prevScaleOf s)
      else some (fmt0 (value / u) ++ s)
    else format_ticks_loop value m rest) = some (fmt0 value ++ prevScaleOf s)
  rw [if_pos h, if_pos h2]

/-- C2: whenever the smallest scale of the ladder whose ratio test
`0.1 <= max/unit < 999` succeeds is the scale at position `i`, and the scaled
value `value/unit` is at least 1, `format_ticks` returns the scaled value
rounded to 0 decimals with the suffix of that scale appended.  The concrete
instance `format_ticks 1500000 (max 1500000) = "2MM"` is the witness. -/
theorem format_ticks_scale_selection (value m : ℚ) (i : Fin 4)
    (hmin : ∀ j, j < i.val → ¬ scaleCond m j) (hi : scaleCond m i.val)
    (hge : 1 ≤ value / scaleUnit i.val) :
    format_ticks value (some m) (none : Option Unit) =
      fmt0 (value / scaleUnit i.val) ++ scaleSuffix i.val := by
  have hv : value ≠ 0 := by
    intro h
    rw [h, zero_div] at hge
    exact absurd hge (by norm_num)
  have h2 : ¬ value / scaleUnit i.val < 1 := not_lt.mpr hge
  rw [format_ticks_eq, if_neg hv]
  fin_cases i
  · have hiq : (1:ℚ)/10 ≤ m / 1000 ∧ m / 1000 < 999 := hi
    have h2q : ¬ value / 1000 < 1 := h2
    show (format_ticks_loop value m (("mil", 1000) :: ("MM", 1000000) ::
      ("B", 1000000000) :: ("T", 1000000000000) :: [])).getD (fmt0 value) = _
    rw [loop_cons_pos_ge value m "mil" 1000 _ hiq h2q]
    rfl
  · have hn0 : ¬ ((1:ℚ)/10 ≤ m / 1000 ∧ m / 1000 < 999) := hmin 0 (by decide)
    have hiq : (1:ℚ)/10 ≤ m / 1000000 ∧ m / 1000000 < 999 := hi
    have h2q : ¬ value / 1000000 < 1 := h2
    show (format_ticks_loop value m (("mil", 1000) :: ("MM", 1000000) ::
      ("B", 1000000000) :: ("T", 1000000000000) :: [])).getD (fmt0 value) = _
    rw [loop_cons_neg value m "mil" 1000 _ hn0,
      loop_cons_pos_ge value m "MM" 1000000 _ hiq h2q]
    rfl
  · have hn0 : ¬ ((1:ℚ)/10 ≤ m / 1000 ∧ m / 1000 < 999) := hmin 0 (by decide)
    have hn1 : ¬ ((1:ℚ)/10 ≤ m / 1000000 ∧ m / 1000000 < 999) := hmin 1 (by decide)
    have hiq : (1:ℚ)/10 ≤ m / 1000000000 ∧ m / 1000000000 < 999 := hi
    have h2q : ¬ value / 1000000000 < 1 := h2
    show (format_ticks_loop value m (("mil", 1000) :: ("MM", 1000000) ::
      ("B", 1000000000) :: ("T", 1000000000000) :: [])).getD (fmt0 value) = _
    rw [loop_cons_neg value m "mil" 1000 _ hn0,
      loop_cons_neg value m "MM" 1000000 _ hn1,
      loop_cons_pos_ge value m "B" 1000000000 _ hiq h2q]
    rfl
  · have hn0 : ¬ ((1:ℚ)/10 ≤ m / 1000 ∧ m / 1000 < 999) := hmin 0 (by decide)
    have hn1 : ¬ ((1:ℚ)/10 ≤ m / 1000000 ∧ m / 1000000 < 999) := hmin 1 (by decide)
    have hn2 : ¬ ((1:ℚ)/10 ≤ m / 1000000000 ∧ m / 1000000000 < 999) := hmin 2 (by decide)
    have hiq : (1:ℚ)/10 ≤ m / 1000000000000 ∧ m / 1000000000000 < 999 := hi
    have h2q : ¬ value / 1000000000000 < 1 := h2
    show (format_ticks_loop value m (("mil", 1000) :: ("MM", 1000000) ::
      ("B", 1000000000) :: ("T", 1000000000000) :: [])).getD (fmt0 value) = _
    rw [loop_cons_neg value m "mil" 1000 _ hn0,
      loop_cons_neg value m "MM" 1000000 _ hn1,
      loop_cons_neg value m "B" 1000000000 _ hn2,
      loop_cons_pos_ge value m "T" 1000000000000 _ hiq h2q]
    rfl

/-- Witness for C2 at the concrete input of the spec:
`format_ticks(1_500_000, max=1_500_000)` returns `"2MM"`. -/
theorem format_ticks_scale_selection_witness :
    format_ticks (1500000 : ℚ) (some 1500000) (none : Option Unit) = "2MM" := by
  have h := format_ticks_scale_selection 1500000 1500000 ⟨1, by norm_num⟩
    (by
      intro j hj
      have hj1 : j < 1 := hj
      rcases Nat.lt_one_iff.mp hj1 with rfl
      intro hc
      have h999 : (1500000 : ℚ) / 1000 < 999 := hc.2
      norm_num at h999)
    (by
      show (1/10 : ℚ) ≤ 1500000 / 1000000 ∧ (1500000 : ℚ) / 1000000 < 999
      norm_num)
    (by
      show (1 : ℚ) ≤ 1500000 / 1000000
      norm_num)
  rw [h]
  with_unfolding_all decide

/-- C1, counterexample: with `max = 1_000_000` the selected scale is the one
at position 1 of the ladder (the suffix `MM`), and `value = 500_000` scales
to `0.5 < 1`; the claim then demands the suffix of the previous scale
(`mil`), but `format_ticks` returns `"500000"` with no suffix, because the
fallback keeps a suffix only when the decremented index is strictly
positive. -/
theorem format_ticks_prev_scale_counterexample :
    (¬ scaleCond (1000000 : ℚ) 0) ∧ scaleCond (1000000 : ℚ) 1 ∧
      (500000 : ℚ) / scaleUnit 1 < 1 ∧ scaleSuffix 1 ≠ "mil" ∧
      format_ticks (500000 : ℚ) (some 1000000) (none : Option Unit) = "500000" ∧
      fmt0 (500000 : ℚ) ++ scaleSuffix 0 = "500000mil" ∧
      ("500000" : String) ≠ "500000mil" := by
  with_unfolding_all decide

/-- C1 as amended: when the smallest scale of the ladder passing the ratio
test sits at position `i` and the scaled value is below 1, `format_ticks`
returns the raw value rounded to 0 decimals, with the suffix of the previous
scale appended only for `i ≥ 2` (scales `B` and `T`); for the two smallest
scales `mil` and `MM` no suffix is appended. -/
theorem format_ticks_small_value_fallback (value m : ℚ) (i : Fin 4)
    (hv : value ≠ 0)
    (hmin : ∀ j, j < i.val → ¬ scaleCond m j) (hi : scaleCond m i.val)
    (hlt : value / scaleUnit i.val < 1) :
    format_ticks value (some m) (none : Option Unit) =
      fmt0 value ++ (if 2 ≤ i.val then scaleSuffix (i.val - 1) else "") := by
  rw [format_ticks_eq, if_neg hv]
  fin_cases i
  · have hiq : (1:ℚ)/10 ≤ m / 1000 ∧ m / 1000 < 999 := hi
    have h2q : value / 1000 < 1 := hlt
    show (format_ticks_loop value m (("mil", 1000) :: ("MM", 1000000) ::
      ("B", 1000000000) :: ("T", 1000000000000) :: [])).getD (fmt0 value) = _
    rw [loop_cons_pos_lt value m "mil" 1000 _ hiq h2q, Option.getD_some]
    exact congrArg (fun t => fmt0 value ++ t) (by with_unfolding_all decide)
  · have hn0 : ¬ ((1:ℚ)/10 ≤ m / 1000 ∧ m / 1000 < 999) := hmin 0 (by decide)
    have hiq : (1:ℚ)/10 ≤ m / 1000000 ∧ m / 1000000 < 999 := hi
    have h2q : value / 1000000 < 1 := hlt
    show (format_ticks_loop value m (("mil", 1000) :: ("MM", 1000000) ::
      ("B", 1000000000) :: ("T", 1000000000000) :: [])).getD (fmt0 value) = _
    rw [loop_cons_neg value m "mil" 1000 _ hn0,
      loop_cons_pos_lt value m "MM" 1000000 _ hiq h2q, Option.getD_some]
    exact congrArg (fun t => fmt0 value ++ t) (by with_unfolding_all decide)
  · have hn0 : ¬ ((1:ℚ)/10 ≤ m / 1000 ∧ m / 1000 < 999) := hmin 0 (by decide)
    have hn1 : ¬ ((1:ℚ)/10 ≤ m / 1000000 ∧ m / 1000000 < 999) := hmin 1 (by decide)
    have hiq : (1:ℚ)/10 ≤ m / 1000000000 ∧ m / 1000000000 < 999 := hi
    have h2q : value / 1000000000 < 1 := hlt
    show (format_ticks_loop value m (("mil", 1000) :: ("MM", 1000000) ::
      ("B", 1000000000) :: ("T", 1000000000000) :: [])).getD (fmt0 value) = _
    rw [loop_cons_neg value m "mil" 1000 _ hn0,
      loop_cons_neg value m "MM" 1000000 _ hn1,
      loop_cons_pos_lt value m "B" 1000000000 _ hiq h2q, Option.getD_some]
    exact congrArg (fun t => fmt0 value ++ t) (by with_unfolding_all decide)
  · have hn0 : ¬ ((1:ℚ)/10 ≤ m / 1000 ∧ m / 1000 < 999) := hmin 0 (by decide)
    have hn1 : ¬ ((1:ℚ)/10 ≤ m / 1000000 ∧ m / 1000000 < 999) := hmin 1 (by decide)
    have hn2 : ¬ ((1:ℚ)/10 ≤ m / 1000000000 ∧ m / 1000000000 < 999) := hmin 2 (by decide)
    have hiq : (1:ℚ)/10 ≤ m / 1000000000000 ∧ m / 1000000000000 < 999 := hi
    have h2q : value / 1000000000000 < 1 := hlt
    show (format_ticks_loop value m (("mil", 1000) :: ("MM", 1000000) ::
      ("B", 1000000000) :: ("T", 1000000000000) :: [])).getD (fmt0 value) = _
    rw [loop_cons_neg value m "mil" 1000 _ hn0,
      loop_cons_neg value m "MM" 1000000 _ hn1,
      loop_cons_neg value m "B" 1000000000 _ hn2,
      loop_cons_pos_lt value m "T" 1000000000000 _ hiq h2q, Option.getD_some]
    exact congrArg (fun t => fmt0 value ++ t) (by with_unfolding_all decide)

/-- Witness for the amended C1: at `value = 500_000_000` and
`max = 1_000_000_000` the selected scale is `B`, the scaled value is
`0.5 < 1`, and the raw value is printed with the suffix of the previous
scale `MM`. -/
theorem format_ticks_small_value_fallback_witness :
    format_ticks (500000000 : ℚ) (some 1000000000) (none : Option Unit) =
      "500000000MM" := by
  have h := format_ticks_small_value_fallback 500000000 1000000000 ⟨2, by norm_num⟩
    (by norm_num)
    (by
      intro j hj
      have hj2 : j < 2 := hj
      interval_cases j
      · intro hc
        have h999 : (1000000000 : ℚ) / 1000 < 999 := hc.2
        norm_num at h999
      · intro hc
        have h999 : (1000000000 : ℚ) / 1000000 < 999 := hc.2
        norm_num at h999)
    (by
      show (1/10 : ℚ) ≤ 1000000000 / 1000000000 ∧ (1000000000 : ℚ) / 1000000000 < 999
      norm_num)
    (by
      show (500000000 : ℚ) / 1000000000 < 1
      norm_num)
  rw [h]
  with_unfolding_all decide

/-- C7: when no scale of the ladder passes the ratio test for `max`, a
nonzero value is returned rounded to 0 decimals with no suffix. -/
theorem format_ticks_no_scale (value m : ℚ) (hv : value ≠ 0)
    (h : ∀ i, i < 4 → ¬ scaleCond m i) :
    format_ticks value (some m) (none : Option Unit) = fmt0 value := by
  rw [format_ticks_eq, if_neg hv]
  have hn0 : ¬ ((1:ℚ)/10 ≤ m / 1000 ∧ m / 1000 < 999) := h 0 (by norm_num)
  have hn1 : ¬ ((1:ℚ)/10 ≤ m / 1000000 ∧ m / 1000000 < 999) := h 1 (by norm_num)
  have hn2 : ¬ ((1:ℚ)/10 ≤ m / 1000000000 ∧ m / 1000000000 < 999) := h 2 (by norm_num)
  have hn3 : ¬ ((1:ℚ)/10 ≤ m / 1000000000000 ∧ m / 1000000000000 < 999) :=
    h 3 (by norm_num)
  show (format_ticks_loop value m (("mil", 1000) :: ("MM", 1000000) ::
    ("B", 1000000000) :: ("T", 1000000000000) :: [])).getD (fmt0 value) = _
  rw [loop_cons_neg value m "mil" 1000 _ hn0,
    loop_cons_neg value m "MM" 1000000 _ hn1,
    loop_cons_neg value m "B" 1000000000 _ hn2,
    loop_cons_neg value m "T" 1000000000000 _ hn3]
  rfl

/-- Witness for C7 at the concrete input of the spec:
`format_ticks(50, max=50)` returns `"50"`. -/
theorem format_ticks_no_scale_witness :
    format_ticks (50 : ℚ) (some 50) (none : Option Unit) = "50" := by
  rw [format_ticks_no_scale 50 50 (by norm_num) (by with_unfolding_all decide)]
  with_unfolding_all decide

/-- C10: the third parameter of `format_ticks` (named `_` in the source) has
no influence on the result, at any two argument types; the function restricted
to its first two parameters is deterministic. -/
theorem format_ticks_ignores_third_argument {α β : Type} (value : ℚ)
    (max : Option ℚ) (p : Option α) (q : Option β) :
    format_ticks value max p = format_ticks value max q := rfl

/-- Embedding of `truncate_label(label, length=32)` from `supply_format.py`. -/
def truncate_label (label : String) (length : ℕ := 32) : String :=
  if label.length > length then label.take length ++ "..." else label

lemma length_take_append_dots (s : String) (n : ℕ) (h : n < s.length) :
    (s.take n ++ "...").length = n + 3 := by
  rw [String.length_append, ← String.length_data, String.data_take, List.length_take,
    String.length_data, min_eq_left h.le]
  rfl

/-- C6: `truncate_label` returns the label unchanged when its length is at
most the requested length, and otherwise returns exactly the first `length`
characters followed by `"..."`, a string of length `length + 3`; the default
length is 32. -/
theorem truncate_label_spec (s : String) (L : ℕ) :
    (s.length ≤ L → truncate_label s L = s) ∧
      (L < s.length → truncate_label s L = s.take L ++ "..." ∧
        (truncate_label s L).length = L + 3) ∧
      truncate_label s = truncate_label s 32 := by
  refine ⟨fun h => ?_, fun h => ?_, rfl⟩
  · rw [truncate_label, if_neg (not_lt.mpr h)]
  · rw [truncate_label, if_pos h]
    exact ⟨rfl, length_take_append_dots s L h⟩

/-- Witness for C6 at a concrete truncated input. -/
theorem truncate_label_spec_witness :
    truncate_label "Lorem Ipsum" 5 = "Lorem..." ∧
      (truncate_label "Lorem Ipsum" 5).length = 8 ∧ truncate_label "abc" 32 = "abc" := by
  refine ⟨?_, ?_, ?_⟩
  · have h := ((truncate_label_spec "Lorem Ipsum" 5).2.1 (by decide)).1
    rw [h]
    decide
  · have h := ((truncate_label_spec "Lorem Ipsum" 5).2.1 (by decide)).2
    rw [h]
  · exact (truncate_label_spec "abc" 32).1 (by decide)

/-!
Python dictionaries are modelled as association lists with first-match
lookup.  Assignment `d[k] = v` replaces the value of an existing key in
place and appends a fresh key at the end, matching the insertion-order
semantics of Python dicts; `d.update(other)` assigns every pair of `other`
in order.
-/

/-- Association-list model of a Python `dict` with string keys. -/
abbrev Dict (V : Type) : Type := List (String × V)

/-- Subscript access `d[k]`, as a partial lookup: the value of the first entry with key `k`. -/
def dictLookup {V : Type} : Dict V → String → Option V
  | [], _ => none
  | (k0, v0) :: rest, k => if k0 = k then some v0 else dictLookup rest k

/-- Assignment `d[k] = v`: replace the value of an existing key in place, append a new
key at the end. -/
def dictSet {V : Type} : Dict V → String → V → Dict V
  | [], k, v => [(k, v)]
  | (k0, v0) :: rest, k, v =>
    if k0 = k then (k, v) :: rest else (k0, v0) :: dictSet rest k v

/-- Update `d.update(other)`: assign every pair of `other` into `d`, in order. -/
def dictUpdate {V : Type} (d other : Dict V) : Dict V :=
  other.foldl (fun acc kv => dictSet acc kv.1 kv.2) d

/-- In-place mutation of the value stored at key `k` (the effect of calling
a mutating method on `d[k]`). -/
def dictModify {V : Type} : Dict V → String → (V → V) → Dict V
  | [], _, _ => []
  | (k0, v0) :: rest, k, f =>
    if k0 = k then (k0, f v0) :: rest else (k0, v0) :: dictModify rest k f

/-- The keys of a dict, in order. -/
def dictKeys {V : Type} (d : Dict V) : List String := d.map Prod.fst

lemma dictLookup_dictSet {V : Type} (d : Dict V) (k : String) (v : V) (k2 : String) :
    dictLookup (dictSet d k v) k2 = if k = k2 then some v else dictLookup d k2 := by
  induction d with
  | nil => simp [dictSet, dictLookup]
  | cons kv rest ih =>
    obtain ⟨k0, v0⟩ := kv
    by_cases h0 : k0 = k
    · subst h0
      by_cases h2 : k0 = k2 <;> simp [dictSet, dictLookup, h2]
    · by_cases h2 : k0 = k2
      · subst h2
        have hk : ¬ k = k0 := fun he => h0 he.symm
        simp [dictSet, dictLookup, h0, hk, ih]
      · simp [dictSet, dictLookup, h0, h2, ih]

lemma dictLookup_eq_none_of_not_mem {V : Type} (d : Dict V) (k : String)
    (h : k ∉ dictKeys d) : dictLookup d k = none := by
  induction d with
  | nil => rfl
  | cons kv rest ih =>
    rw [dictLookup]
    rw [dictKeys, List.map_cons, List.mem_cons, not_or] at h
    rw [if_neg (fun he => h.1 he.symm)]
    exact ih (by simpa [dictKeys] using h.2)

lemma dictLookup_dictUpdate {V : Type} (d other : Dict V)
    (h : (dictKeys other).Nodup) (k : String) :
    dictLookup (dictUpdate d other) k =
      match dictLookup other k with
      | some v => some v
      | none => dictLookup d k := by
  induction other generalizing d with
  | nil => rfl
  | cons kv rest ih =>
    obtain ⟨k0, v0⟩ := kv
    rw [dictKeys, List.map_cons, List.nodup_cons] at h
    have step : dictUpdate d ((k0, v0) :: rest) = dictUpdate (dictSet d k0 v0) rest := rfl
    rw [step, ih _ (by simpa [dictKeys] using h.2)]
    by_cases hk : k0 = k
    · subst hk
      have hrest : dictLookup rest k0 = none :=
        dictLookup_eq_none_of_not_mem rest k0 (by simpa [dictKeys] using h.1)
      rw [dictLookup, if_pos rfl, hrest, dictLookup_dictSet, if_pos rfl]
    · rw [dictLookup, if_neg hk, dictLookup_dictSet, if_neg hk]

lemma dictLookup_append_sep {V : Type} (a b : Dict V) (k : String) :
    dictLookup (a ++ b) k =
      match dictLookup a k with
      | some v => some v
      | none => dictLookup b k := by
  induction a with
  | nil => rfl
  | cons kv rest ih =>
    obtain ⟨k0, v0⟩ := kv
    have hL : dictLookup (((k0, v0) :: rest) ++ b) k =
        if k0 = k then some v0 else dictLookup (rest ++ b) k := rfl
    have hR : dictLookup ((k0, v0) :: rest) k =
        if k0 = k then some v0 else dictLookup rest k := rfl
    rw [hL, hR]
    by_cases h0 : k0 = k
    · rw [if_pos h0, if_pos h0]
    · rw [if_neg h0, if_neg h0, ih]

lemma dictLookup_dictModify {V : Type} (d : Dict V) (k : String) (f : V → V)
    (k2 : String) :
    dictLookup (dictModify d k f) k2 =
      if k = k2 then (dictLookup d k).map f else dictLookup d k2 := by
  induction d with
  | nil => simp [dictModify, dictLookup]
  | cons kv rest ih =>
    obtain ⟨k0, v0⟩ := kv
    by_cases h0 : k0 = k
    · subst h0
      by_cases h2 : k0 = k2 <;> simp [dictModify, dictLookup, h2]
    · by_cases h2 : k0 = k2
      · subst h2
        have hk : ¬ k = k0 := fun he => h0 he.symm
        simp [dictModify, dictLookup, h0, hk, ih]
      · simp [dictModify, dictLookup, h0, h2, ih]

/-!
The class `My_styles` of `my_style_classes.py`.  Its instance state is the
collection of section attributes assigned by `read_styles` (one attribute
per top-level key of the preset).  The private, name-mangled attribute that
stores `type_style` is abstracted away: ordinary section names cannot
collide with it and it never changes after construction.  Section values
are modelled as dicts, per the preset schema of the spec.
-/

/-- The section attributes of a constructed `My_styles` object. -/
structure My_styles (V : Type) where
  sections : Dict (Dict V)

/-- Method `read_styles`: look up `self.__type_style` in the loaded JSON mapping
and assign each top-level key/value pair as an attribute.  A chart type
missing from the file is a `KeyError`, modelled as `none`. -/
def read_styles {V : Type} (styles_file : Dict (Dict (Dict V)))
    (type_style : String) : Option (My_styles V) :=
  (dictLookup styles_file type_style).map (fun preset => ⟨preset⟩)

/-- Method `update_style_for_dict(**kwargs)`: for each key of `kwargs`, in order,
when the key names an existing attribute, merge the override dict into that
attribute in place with `dict.update`; otherwise do nothing. -/
def update_style_for_dict {V : Type} (s : My_styles V) (kwargs : Dict (Dict V)) :
    My_styles V :=
  kwargs.foldl
    (fun st kv =>
      if (dictLookup st.sections kv.1).isSome then
        ⟨dictModify st.sections kv.1 (fun old => dictUpdate old kv.2)⟩
      else st)
    s

/-- Constructor `My_styles.__init__(type_style, **kwargs)`: read the preset, then apply
the overrides. -/
def My_styles_init {V : Type} (styles_file : Dict (Dict (Dict V)))
    (type_style : String) (kwargs : Dict (Dict V)) : Option (My_styles V) :=
  (read_styles styles_file type_style).map
    (fun s => update_style_for_dict s kwargs)

lemma update_style_for_dict_noop {V : Type} (s0 : My_styles V)
    (kwargs : Dict (Dict V))
    (hnone : ∀ kv ∈ kwargs, dictLookup s0.sections kv.1 = none) :
    update_style_for_dict s0 kwargs = s0 := by
  induction kwargs with
  | nil => rfl
  | cons kv rest ih =>
    have step : update_style_for_dict s0 (kv :: rest) =
        update_style_for_dict
          (if (dictLookup s0.sections kv.1).isSome then
            (⟨dictModify s0.sections kv.1 (fun old => dictUpdate old kv.2)⟩ :
              My_styles V)
          else s0) rest := rfl
    rw [step, if_neg (by rw [hnone kv (List.mem_cons_self _ _)]; simp)]
    exact ih (fun kv2 h2 => hnone kv2 (List.mem_cons_of_mem _ h2))

/-- C3: constructing a `My_styles` profile with overrides whose keys all
miss the sections of the loaded preset returns the preset unchanged; the
unknown override keys are silently ignored and no section is added. -/
theorem unknown_overrides_are_ignored {V : Type}
    (styles_file : Dict (Dict (Dict V))) (type_style : String)
    (kwargs : Dict (Dict V)) (s0 : My_styles V)
    (hread : read_styles styles_file type_style = some s0)
    (hnone : ∀ kv ∈ kwargs, dictLookup s0.sections kv.1 = none) :
    My_styles_init styles_file type_style kwargs = some s0 := by
  rw [My_styles_init, hread, Option.map_some',
    update_style_for_dict_noop s0 kwargs hnone]

/-- Witness for C3: an override for the unknown section `desconhecido`
leaves a two-section boxplot preset untouched. -/
theorem unknown_overrides_are_ignored_witness :
    My_styles_init
      [("boxplot", [("titulo", [("label", "T")]), ("grafico", [("x", "col")])])]
      "boxplot" [("desconhecido", [("a", "b")])] =
      some ⟨[("titulo", [("label", "T")]), ("grafico", [("x", "col")])]⟩ :=
  unknown_overrides_are_ignored _ "boxplot" _
    ⟨[("titulo", [("label", "T")]), ("grafico", [("x", "col")])]⟩
    rfl (by decide)

/-- C4: constructing a `My_styles` profile with an override for a section
present in the preset merges the override into that section with shallow
`dict.update` semantics: every override key ends at its override value,
every other key of the section keeps its preset value, and all other
sections are untouched. -/
theorem known_override_shallow_merge {V : Type}
    (styles_file : Dict (Dict (Dict V))) (type_style n : String)
    (o : Dict V) (s0 : My_styles V) (sec : Dict V)
    (hread : read_styles styles_file type_style = some s0)
    (hsec : dictLookup s0.sections n = some sec)
    (ho : (dictKeys o).Nodup) :
    My_styles_init styles_file type_style [(n, o)] =
        some ⟨dictModify s0.sections n (fun old => dictUpdate old o)⟩ ∧
      dictLookup (dictModify s0.sections n (fun old => dictUpdate old o)) n =
        some (dictUpdate sec o) ∧
      (∀ k v, dictLookup o k = some v → dictLookup (dictUpdate sec o) k = some v) ∧
      (∀ k, dictLookup o k = none →
        dictLookup (dictUpdate sec o) k = dictLookup sec k) ∧
      (∀ m2, m2 ≠ n →
        dictLookup (dictModify s0.sections n (fun old => dictUpdate old o)) m2 =
          dictLookup s0.sections m2) := by
  have hs : (dictLookup s0.sections n).isSome = true := by rw [hsec]; rfl
  have hstep : update_style_for_dict s0 [(n, o)] =
      ⟨dictModify s0.sections n (fun old => dictUpdate old o)⟩ := by
    show (if (dictLookup s0.sections n).isSome then
        (⟨dictModify s0.sections n (fun old => dictUpdate old o)⟩ : My_styles V)
      else s0) = _
    rw [if_pos hs]
  refine ⟨?_, ?_, ?_, ?_, ?_⟩
  · rw [My_styles_init, hread, Option.map_some', hstep]
  · rw [dictLookup_dictModify, if_pos rfl, hsec]
    rfl
  · intro k v hk
    rw [dictLookup_dictUpdate sec o ho k, hk]
  · intro k hk
    rw [dictLookup_dictUpdate sec o ho k, hk]
  · intro m2 hm
    rw [dictLookup_dictModify, if_neg (fun he => hm he.symm)]

/-- Witness for C4: overriding only `alpha` inside the known section
`grafico` replaces `alpha` and preserves the other key `s` and the other
section `titulo`. -/
theorem known_override_shallow_merge_witness :
    My_styles_init
        [("scatterplot",
          [("grafico", [("alpha", "1"), ("s", "50")]),
            ("titulo", [("label", "T")])])]
        "scatterplot" [("grafico", [("alpha", "0.5")])] =
      some ⟨dictModify
        [("grafico", [("alpha", "1"), ("s", "50")]), ("titulo", [("label", "T")])]
        "grafico" (fun old => dictUpdate old [("alpha", "0.5")])⟩ ∧
      dictLookup (dictModify
        [("grafico", [("alpha", "1"), ("s", "50")]), ("titulo", [("label", "T")])]
        "grafico" (fun old => dictUpdate old [("alpha", "0.5")])) "grafico" =
        some (dictUpdate [("alpha", "1"), ("s", "50")] [("alpha", "0.5")]) ∧
      dictUpdate [("alpha", "1"), ("s", "50")] [("alpha", "0.5")] =
        [("alpha", "0.5"), ("s", "50")] := by
  have h := known_override_shallow_merge
    [("scatterplot",
      [("grafico", [("alpha", "1"), ("s", "50")]), ("titulo", [("label", "T")])])]
    "scatterplot" "grafico" [("alpha", "0.5")]
    ⟨[("grafico", [("alpha", "1"), ("s", "50")]), ("titulo", [("label", "T")])]⟩
    [("alpha", "1"), ("s", "50")] rfl rfl (by decide)
  exact ⟨h.1, h.2.1, by decide⟩

/-!
The boxplot renderer.  `My_boxplot.__init__` appends the outlier count to
the title label at construction time.  The percentile computation
`Series.quantile` is performed by the external pandas library; it is
modelled here by its documented behavior, linear interpolation between the
order statistics at position `q * (n - 1)`.
-/

/-- Insert a value into a sorted list of rationals. -/
def insertRat (x : ℚ) : List ℚ → List ℚ
  | [] => [x]
  | y :: ys => if x ≤ y then x :: y :: ys else y :: insertRat x ys

/-- Insertion sort for rationals. -/
def sortRat : List ℚ → List ℚ
  | [] => []
  | x :: xs => insertRat x (sortRat xs)

/-- Percentile `Series.quantile(q)` of pandas with the default linear interpolation:
the order statistic at the real position `q * (n - 1)`, interpolating
linearly between the two neighbouring sorted values. -/
def quantile (xs : List ℚ) (q : ℚ) : ℚ :=
  let sorted := sortRat xs
  let pos := q * ((sorted.length : ℚ) - 1)
  let lo := pos.floor
  let frac := pos - (lo : ℚ)
  let vlo := sorted.getD lo.toNat 0
  let vhi := sorted.getD (lo.toNat + 1) 0
  vlo + frac * (vhi - vlo)

/-- Method `My_boxplot.quantidade_outliers`: the number of y-values strictly
outside `[Q1 - 1.5*IQR, Q3 + 1.5*IQR]`, with `Q1`/`Q3` the 25th and 75th
percentiles and `IQR = Q3 - Q1`. -/
def quantidade_outliers (data_y : List ℚ) : ℕ :=
  let Q1 := quantile data_y (1/4)
  let Q3 := quantile data_y (3/4)
  let IQR := Q3 - Q1
  let lower_bound := Q1 - 1.5 * IQR
  let upper_bound := Q3 + 1.5 * IQR
  data_y.countP (fun v => decide (v < lower_bound) || decide (upper_bound < v))

/-- The title label set by `My_boxplot.__init__`: the configured label with
the outlier count appended. -/
def My_boxplot_title (label : String) (data_y : List ℚ) : String :=
  label ++ "\nNúmero de Outliers:" ++ toString (quantidade_outliers data_y)

/-- C5: the boxplot title is the configured label extended with the outlier
count obtained from the IQR rule (count of values strictly outside
`[Q1 - 1.5*IQR, Q3 + 1.5*IQR]`); for the y-values `[1,2,3,4,100]` the
quartiles are `Q1 = 2` and `Q3 = 4`, exactly one value is an outlier, and
the title ends in `"Número de Outliers:1"`. -/
theorem boxplot_outlier_title :
    (∀ data_y : List ℚ,
      quantidade_outliers data_y =
        data_y.countP (fun v =>
          decide (v < quantile data_y (1/4) -
            1.5 * (quantile data_y (3/4) - quantile data_y (1/4))) ||
          decide (quantile data_y (3/4) +
            1.5 * (quantile data_y (3/4) - quantile data_y (1/4)) < v))) ∧
      quantile [1, 2, 3, 4, 100] (1/4) = 2 ∧
      quantile [1, 2, 3, 4, 100] (3/4) = 4 ∧
      quantidade_outliers [1, 2, 3, 4, 100] = 1 ∧
      (∀ label : String,
        My_boxplot_title label [1, 2, 3, 4, 100] =
          label ++ "\nNúmero de Outliers:1") := by
  refine ⟨fun data_y => rfl, ?_, ?_, ?_, ?_⟩
  · with_unfolding_all decide
  · with_unfolding_all decide
  · with_unfolding_all decide
  · intro label
    have h : ("\nNúmero de Outliers:" ++
        toString (quantidade_outliers [1, 2, 3, 4, 100]) : String) =
        "\nNúmero de Outliers:1" := by
      with_unfolding_all decide
    rw [My_boxplot_title, String.append_assoc, h]

/-!
The heatmap renderer.  `My_headmap.make` computes (through pandas) the
correlation matrix of the dataset, rounds it to two decimals, and calls
`sns.heatmap` with the matrix as data, the tick labels read from the
`grafico` section, and the remaining `grafico` entries as keyword options.
The keyword filter comes from `decorator_filter_kw` applied to the list holding data, x and y.
-/

/-- The closure produced by `decorator_filter_kw(my_list)`: copy every
entry of `self.grafico` whose key is not in `my_list` into a fresh dict. -/
def filter_kw {V : Type} (my_list : List String) (grafico : Dict V) : Dict V :=
  grafico.foldl
    (fun filter_kwargs kv =>
      if kv.1 ∉ my_list then dictSet filter_kwargs kv.1 kv.2
      else filter_kwargs)
    []

lemma dictSet_eq_append {V : Type} (d : Dict V) (k : String) (v : V)
    (h : dictLookup d k = none) : dictSet d k v = d ++ [(k, v)] := by
  induction d with
  | nil => rfl
  | cons kv rest ih =>
    obtain ⟨k0, v0⟩ := kv
    have h0 : ¬ k0 = k := by
      intro he
      rw [dictLookup, if_pos he] at h
      exact Option.noConfusion h
    rw [dictLookup, if_neg h0] at h
    rw [dictSet, if_neg h0, ih h]
    rfl

lemma filter_kw_foldl_eq {V : Type} (l : List String) (g : Dict V) :
    ∀ acc : Dict V, (∀ kv ∈ g, dictLookup acc kv.1 = none) → (dictKeys g).Nodup →
      g.foldl
        (fun filter_kwargs kv =>
          if kv.1 ∉ l then dictSet filter_kwargs kv.1 kv.2
          else filter_kwargs) acc =
        acc ++ g.filter (fun kv => decide (kv.1 ∉ l)) := by
  induction g with
  | nil =>
    intro acc _ _
    simp
  | cons kv rest ih =>
    intro acc hacc hg
    obtain ⟨k0, v0⟩ := kv
    rw [dictKeys, List.map_cons, List.nodup_cons] at hg
    rw [List.foldl_cons]
    by_cases hmem : k0 ∈ l
    · have hskip : (if (k0, v0).1 ∉ l then dictSet acc (k0, v0).1 (k0, v0).2
          else acc) = acc := by
        simp [hmem]
      rw [hskip, ih acc (fun kv2 h2 => hacc kv2 (List.mem_cons_of_mem _ h2))
        (by simpa [dictKeys] using hg.2)]
      have hdrop : List.filter (fun kv => decide (kv.1 ∉ l)) ((k0, v0) :: rest) =
          List.filter (fun kv => decide (kv.1 ∉ l)) rest :=
        List.filter_cons_of_neg (by simp [hmem])
      rw [hdrop]
    · have hset : (if (k0, v0).1 ∉ l then dictSet acc (k0, v0).1 (k0, v0).2
          else acc) = acc ++ [(k0, v0)] := by
        rw [if_pos hmem]
        exact dictSet_eq_append acc k0 v0 (hacc (k0, v0) (List.mem_cons_self _ _))
      have hacc2 : ∀ kv2 ∈ rest, dictLookup (acc ++ [(k0, v0)]) kv2.1 = none := by
        intro kv2 h2
        rw [dictLookup_append_sep, hacc kv2 (List.mem_cons_of_mem _ h2)]
        have hk2 : ¬ k0 = kv2.1 := by
          intro he
          refine hg.1 ?_
          rw [he]
          exact List.mem_map.mpr ⟨kv2, h2, rfl⟩
        rw [dictLookup, if_neg hk2]
        rfl
      rw [hset, ih (acc ++ [(k0, v0)]) hacc2 (by simpa [dictKeys] using hg.2)]
      have hkeep : List.filter (fun kv => decide (kv.1 ∉ l)) ((k0, v0) :: rest) =
          (k0, v0) :: List.filter (fun kv => decide (kv.1 ∉ l)) rest :=
        List.filter_cons_of_pos (by simp [hmem])
      rw [hkeep, List.append_assoc]
      rfl

lemma dictLookup_filter {V : Type} (l : List String) (g : Dict V) (k : String) :
    dictLookup (g.filter (fun kv => decide (kv.1 ∉ l))) k =
      if k ∈ l then none else dictLookup g k := by
  induction g with
  | nil =>
    show (none : Option V) = if k ∈ l then none else none
    rw [ite_self]
  | cons kv rest ih =>
    obtain ⟨k0, v0⟩ := kv
    by_cases hmem : k0 ∈ l
    · rw [List.filter_cons_of_neg (by simp [hmem]), ih]
      by_cases hkl : k ∈ l
      · rw [if_pos hkl, if_pos hkl]
      · rw [if_neg hkl, if_neg hkl, dictLookup,
          if_neg (fun he : k0 = k => hkl (he ▸ hmem))]
    · rw [List.filter_cons_of_pos (by simp [hmem])]
      by_cases hk : k0 = k
      · subst hk
        rw [dictLookup, if_pos rfl, if_neg hmem, dictLookup, if_pos rfl]
      · rw [dictLookup, if_neg hk, ih]
        by_cases hkl : k ∈ l
        · rw [if_pos hkl, if_pos hkl]
        · rw [if_neg hkl, if_neg hkl, dictLookup, if_neg hk]

/-- Python `round(x, 2)` applied by `round(dataframe.corr(), 2)`: round half
to even at the second decimal. -/
def round2 (q : ℚ) : ℚ := (pyRound0 (q * 100) : ℚ) / 100

/-- The arguments of the `sns.heatmap` call issued by `My_headmap.make`. -/
structure HeatmapCall (V : Type) where
  data : List (List ℚ)
  xticklabels : V
  yticklabels : V
  kwargs : Dict V
  deriving DecidableEq

/-- The drawing step of `My_headmap.make`: the correlation matrix
`self.grafico` data column correlation `corr()` is computed by the external pandas library,
supplied here as the function `corr`; the code under verification rounds it
to two decimals and wires the heatmap arguments.  A `grafico` section
missing one of the keys `data`, `x`, `y` raises `KeyError`, modelled as
`none`. -/
def My_headmap_make {V : Type} (grafico : Dict V)
    (corr : V → List (List ℚ)) : Option (HeatmapCall V) :=
  match dictLookup grafico "data", dictLookup grafico "x",
      dictLookup grafico "y" with
  | some d, some x, some y =>
    some { data := (corr d).map (fun row => row.map round2),
           xticklabels := x, yticklabels := y,
           kwargs := filter_kw ["data", "x", "y"] grafico }
  | _, _, _ => none

/-- C8: the heatmap draw call receives the elementwise two-decimal rounding
of the correlation matrix as data, the tick labels from the `grafico`
section keys `x` and `y`, and as keyword options exactly the `grafico`
entries other than `data`, `x`, `y`, unchanged; every data entry is an
integer multiple of 1/100. -/
theorem heatmap_call_spec {V : Type} (grafico : Dict V)
    (corr : V → List (List ℚ)) (d x y : V)
    (hnd : (dictKeys grafico).Nodup)
    (hd : dictLookup grafico "data" = some d)
    (hx : dictLookup grafico "x" = some x)
    (hy : dictLookup grafico "y" = some y) :
    My_headmap_make grafico corr =
        some { data := (corr d).map (fun row => row.map round2),
               xticklabels := x, yticklabels := y,
               kwargs := filter_kw ["data", "x", "y"] grafico } ∧
      (∀ k, k ≠ "data" → k ≠ "x" → k ≠ "y" →
        dictLookup (filter_kw ["data", "x", "y"] grafico) k =
          dictLookup grafico k) ∧
      (∀ k, k = "data" ∨ k = "x" ∨ k = "y" →
        dictLookup (filter_kw ["data", "x", "y"] grafico) k = none) ∧
      (∀ row ∈ (corr d).map (fun r => r.map round2), ∀ q ∈ row,
        (q * 100).den = 1) := by
  have hfe : filter_kw ["data", "x", "y"] grafico =
      grafico.filter (fun kv => decide (kv.1 ∉ (["data", "x", "y"] : List String))) := by
    rw [filter_kw, filter_kw_foldl_eq _ _ [] (fun kv _ => rfl) hnd]
    rfl
  refine ⟨?_, ?_, ?_, ?_⟩
  · rw [My_headmap_make, hd, hx, hy]
  · intro k h1 h2 h3
    rw [hfe, dictLookup_filter, if_neg (by simp [h1, h2, h3])]
  · intro k hk
    rw [hfe, dictLookup_filter, if_pos (by rcases hk with h | h | h <;> simp [h])]
  · intro row hrow q hq
    rw [List.mem_map] at hrow
    obtain ⟨r, _, hr⟩ := hrow
    rw [← hr, List.mem_map] at hq
    obtain ⟨q0, _, hq0⟩ := hq
    rw [← hq0, round2, div_mul_cancel₀ _ (by norm_num : (100:ℚ) ≠ 0)]
    exact Rat.den_intCast _

/-- Witness for C8: a concrete `grafico` section with an extra option
`cmap`; the correlation entry 0.457 is rounded to 0.46 and `cmap` is the
only forwarded keyword. -/
theorem heatmap_call_spec_witness :
    My_headmap_make
        [("data", "df"), ("x", "xl"), ("y", "yl"), ("cmap", "Blues")]
        (fun _ => [[1, 457/1000]]) =
      some { data := [[1, 23/50]], xticklabels := "xl", yticklabels := "yl",
             kwargs := [("cmap", "Blues")] } ∧
      dictLookup (filter_kw ["data", "x", "y"]
        [("data", "df"), ("x", "xl"), ("y", "yl"), ("cmap", "Blues")]) "cmap" =
        some "Blues" := by
  have h := heatmap_call_spec
    [("data", "df"), ("x", "xl"), ("y", "yl"), ("cmap", "Blues")]
    (fun _ => [[1, 457/1000]]) "df" "xl" "yl" (by decide) rfl rfl rfl
  constructor
  · rw [h.1]
    with_unfolding_all decide
  · rw [h.2.1 "cmap" (by decide) (by decide) (by decide)]
    with_unfolding_all decide

/-!
The palette re-application step at the end of `pre_make`:

  the palette entry of `self.estilo` when `hasattr` finds one, else the empty dict

`self.estilo` is a dict loaded from JSON, so `hasattr` asks whether the
builtin dict type has an attribute named `palette`; it never inspects the
keys of the dict.
-/

/-- The attribute names of the builtin Python `dict` type, as observed by
`hasattr` on a dict value. -/
def python_dict_attributes : List String :=
  ["__class__", "__contains__", "__delattr__", "__delitem__", "__dir__",
   "__doc__", "__eq__", "__format__", "__ge__", "__getattribute__",
   "__getitem__", "__gt__", "__hash__", "__init__", "__init_subclass__",
   "__iter__", "__le__", "__len__", "__lt__", "__ne__", "__new__",
   "__reduce__", "__reduce_ex__", "__repr__", "__reversed__", "__setattr__",
   "__setitem__", "__sizeof__", "__str__", "__subclasshook__",
   "clear", "copy", "fromkeys", "get", "items", "keys", "pop", "popitem",
   "setdefault", "update", "values"]

/-- Test `hasattr(d, name)` for a dict value `d`. -/
def dict_hasattr (name : String) : Bool :=
  python_dict_attributes.contains name

/-- The argument handed to `sns.set_palette` by `pre_make` after the
drawing step: the palette entry of the style section when the `hasattr`
test succeeds (`KeyError` when the tested key is then missing), and the
literal empty dict `{}` (modelled as `none`) otherwise. -/
def set_palette_arg {V : Type} (estilo : Dict V) : Except String (Option V) :=
  if dict_hasattr "palette" then
    match dictLookup estilo "palette" with
    | some v => Except.ok (some v)
    | none => Except.error "KeyError"
  else Except.ok none

/-- C9, code bug: the `hasattr` test on `self.estilo` is false for every
dict, so `pre_make` always passes the empty dict to `sns.set_palette` and
never re-applies the palette entry of the style section, even when that
entry is present. -/
theorem palette_never_reapplied :
    (∀ (V : Type) (estilo : Dict V), set_palette_arg estilo = Except.ok none) ∧
      set_palette_arg [("palette", "deep")] = Except.ok (none : Option String) ∧
      dictLookup [("palette", "deep")] "palette" = some "deep" ∧
      (Except.ok (none : Option String) : Except String (Option String)) ≠
        Except.ok (some "deep") := by
  have hfalse : dict_hasattr "palette" = false := by decide
  refine ⟨fun V estilo => ?_, ?_, rfl, by simp⟩
  · rw [set_palette_arg, hfalse]
    rfl
  · rw [set_palette_arg, hfalse]
    rfl
